import Mathlib

/-
Verification of the finance-cli encryption subsystem
(src/finance-cli/src/encryption/: cipher.rs, key.rs, secure_memory.rs,
plus the error taxonomy in src/finance-cli/src/error/mod.rs).

Modelling conventions:
  * Rust byte buffers (Vec<u8>, &[u8]) become List Nat; byte values are the
    numeric values of the bytes.
  * Rust strings become List Char (one Char per Unicode scalar value).
  * Fallible Rust functions returning Result<T> become Except Error T.
  * The randomness consumed inside a function (the per-call nonce of
    encrypt, the generated salt of derive_key) is passed in as an explicit
    argument standing for the bytes the RNG produced.
  * The vetted external cryptographic primitives (the aes_gcm, argon2 and
    sha2 crates) are not part of this repository; where a definition stands
    in for one of them its doc comment starts with "Modelled from the spec".
-/

namespace FinanceCli

/-! ## Error taxonomy (src/finance-cli/src/error/mod.rs, lines 89-112) -/

/-- Encryption-specific errors, from `enum EncryptionError`. -/
inductive EncryptionError where
  | InvalidPassword
  | KeyDerivationFailed (reason : String)
  | EncryptionFailed (reason : String)
  | DecryptionFailed (reason : String)
  | InvalidRecoveryCode
  | CorruptedData
  | MissingKey
  deriving DecidableEq, Repr

/-- The application-wide `enum Error` (error/mod.rs line 14). Only the
`Encryption` variant is reachable from the encryption subsystem; the other
variants (Config, Database, Parse, ...) are omitted as unreachable here. -/
inductive Error where
  | Encryption (e : EncryptionError)
  deriving DecidableEq, Repr

instance {ε α : Type} [DecidableEq ε] [DecidableEq α] : DecidableEq (Except ε α) := fun a b =>
  match a, b with
  | .error x, .error y => decidable_of_iff (x = y) (by simp)
  | .error _, .ok _ => isFalse (by simp)
  | .ok _, .error _ => isFalse (by simp)
  | .ok x, .ok y => decidable_of_iff (x = y) (by simp)

/-! ## Key-derivation data model (src/finance-cli/src/encryption/key.rs) -/

/-- Salt size in bytes (`SALT_SIZE`, key.rs line 22). -/
def SALT_SIZE : Nat := 16

/-- Domain separation for key derivation (`enum KeyDomain`, key.rs lines 56-60). -/
inductive KeyDomain where
  | Database
  | Config
  | Backup
  deriving DecidableEq, Repr

/-- UTF-8 bytes of an ASCII string (Rust `str::as_bytes` on the identifiers
used here, which are all ASCII). -/
def strBytes (s : String) : List Nat := s.toList.map (fun c => c.toNat)

/-- The fixed domain identifier string (`KeyDomain::as_str`, key.rs lines 64-70). -/
def KeyDomain.asStr : KeyDomain → String
  | .Database => "database"
  | .Config => "config"
  | .Backup => "backup"

/-- A derived encryption key with associated salt and domain
(`struct DerivedKey`, key.rs lines 74-78).  The `key` field is the
SecureBytes buffer returned by `DerivedKey::as_bytes`. -/
structure DerivedKey where
  key : List Nat
  salt : List Nat
  domain : KeyDomain
  deriving DecidableEq, Repr

/-! ## AEAD primitive model

The repository calls the external `aes_gcm` crate (AES-256-GCM).  That
library is not part of this repository, so it is modelled from the spec:
a deterministic keystream cipher over (key, nonce) whose output is the
encrypted payload (same length as the plaintext) followed by a 16-byte
authentication tag recomputed and compared on decryption (spec section 4.3
and the glossary entry for AEAD). -/

/-- Modelled from the spec: byte `i` of the keystream that AES-256-GCM in
counter mode produces under `(key, nonce)`.  Stands in for the external AES
block cipher; the model keeps only what the spec states: a deterministic
function of key, nonce and position. -/
def ksByte (key nonce : List Nat) (i : Nat) : Nat :=
  (key.foldl (fun a b => a * 31 + b) 7 + nonce.foldl (fun a b => a * 37 + b) 11 + i * 97) % 256

/-- XOR a buffer against the keystream starting at position `i`. -/
def xorKeystream (key nonce : List Nat) : Nat → List Nat → List Nat
  | _, [] => []
  | i, b :: rest => (b ^^^ ksByte key nonce i) :: xorKeystream key nonce (i + 1) rest

/-- Accumulate input bytes into a running 16-byte tag state. -/
def gTagGo : List Nat → Nat → List Nat → List Nat
  | st, _, [] => st
  | st, i, b :: rest => gTagGo (st.set (i % 16) ((st.getD (i % 16) 0) ^^^ b)) (i + 1) rest

/-- Modelled from the spec: the 16-byte authentication tag AES-256-GCM
computes over the encrypted payload under `(key, nonce)` (spec: "the
AES-256-GCM ciphertext and its 16-byte authentication tag").  Stands in for
the external GHASH computation; the model keeps the interface property the
repository relies on: a deterministic 16-byte function of key, nonce and
encrypted payload. -/
def gTag (key nonce ct : List Nat) : List Nat :=
  gTagGo (List.replicate 16 0) 0 (key ++ nonce ++ ct)

/-- Modelled from the spec: `Aes256Gcm::encrypt` of the aes_gcm crate.
Returns the encrypted payload (plaintext length) followed by the 16-byte
tag ("ciphertext+tag (plaintext length + 16 bytes)"). -/
def aeadEncrypt (key nonce pt : List Nat) : List Nat :=
  xorKeystream key nonce 0 pt ++ gTag key nonce (xorKeystream key nonce 0 pt)

/-- Nonce size for AES-GCM (`NONCE_SIZE`, cipher.rs line 16). -/
def NONCE_SIZE : Nat := 12

/-- Authentication tag size for AES-GCM (`TAG_SIZE`, cipher.rs line 19). -/
def TAG_SIZE : Nat := 16

/-- Modelled from the spec: `Aes256Gcm::decrypt` of the aes_gcm crate.
Splits off the trailing 16-byte tag, recomputes the tag over the encrypted
payload and rejects on mismatch, otherwise strips the keystream. -/
def aeadDecrypt (key nonce data : List Nat) : Option (List Nat) :=
  if data.length < TAG_SIZE then none
  else
    let ct := data.take (data.length - TAG_SIZE)
    let tag := data.drop (data.length - TAG_SIZE)
    if gTag key nonce ct = tag then some (xorKeystream key nonce 0 ct) else none

/-- Modelled from the library contract stated in the spec:
`Aes256Gcm::new_from_slice` succeeds exactly on 32-byte keys. -/
def newFromSlice (key : List Nat) : Option (List Nat) :=
  if key.length = 32 then some key else none

/-! ## Cipher (src/finance-cli/src/encryption/cipher.rs) -/

/-- `encrypt` (cipher.rs lines 34-68).  `nonceBytes` is the explicit image
of the 12 random bytes `rand::thread_rng().fill_bytes` writes into
`nonce_bytes` on this call; the returned buffer is the nonce followed by
the AEAD output, exactly as `result` is assembled in the source. -/
def encrypt (plaintext : List Nat) (nonceBytes : List Nat) (key : DerivedKey) :
    Except Error (List Nat) :=
  let keyBytes := key.key
  if keyBytes.length ≠ 32 then
    .error (.Encryption (.EncryptionFailed "Key must be 32 bytes"))
  else
    match newFromSlice keyBytes with
    | none => .error (.Encryption (.EncryptionFailed "Failed to create cipher"))
    | some _ => .ok (nonceBytes ++ aeadEncrypt keyBytes nonceBytes plaintext)

/-- `decrypt` (cipher.rs lines 82-115), parameterised by the AEAD
decryption primitive it invokes, so that theorems can state that a result
does not depend on the primitive at all.  The branch structure and the
error strings follow the source line by line. -/
def decryptWith (aead : List Nat → List Nat → List Nat → Option (List Nat))
    (ciphertext : List Nat) (key : DerivedKey) : Except Error (List Nat) :=
  if ciphertext.length < NONCE_SIZE + TAG_SIZE then
    .error (.Encryption (.DecryptionFailed "Ciphertext too short"))
  else
    let keyBytes := key.key
    if keyBytes.length ≠ 32 then
      .error (.Encryption (.DecryptionFailed "Key must be 32 bytes"))
    else
      match newFromSlice keyBytes with
      | none => .error (.Encryption (.DecryptionFailed "Failed to create cipher"))
      | some _ =>
        match aead keyBytes (ciphertext.take NONCE_SIZE) (ciphertext.drop NONCE_SIZE) with
        | none =>
          .error (.Encryption (.DecryptionFailed "Decryption failed - invalid key or corrupted data"))
        | some plaintext => .ok plaintext

/-- `decrypt` (cipher.rs lines 82-115): the parameterised form applied to
the modelled AES-256-GCM primitive.  The successful result is the
plaintext byte buffer (wrapped in `SecureBytes::new` in the source). -/
def decrypt : List Nat → DerivedKey → Except Error (List Nat) :=
  decryptWith aeadDecrypt

/-! ## Key derivation (src/finance-cli/src/encryption/key.rs) -/

/-- Argon2id parameters (`ARGON2_MEMORY_KB`, key.rs line 16). -/
def ARGON2_MEMORY_KB : Nat := 65536

/-- `ARGON2_ITERATIONS` (key.rs line 17). -/
def ARGON2_ITERATIONS : Nat := 3

/-- `ARGON2_PARALLELISM` (key.rs line 18). -/
def ARGON2_PARALLELISM : Nat := 4

/-- `ARGON2_OUTPUT_LEN` (key.rs line 19). -/
def ARGON2_OUTPUT_LEN : Nat := 32

/-- The parameter block handed to the external Argon2id primitive
(`argon2::Params`). -/
structure Argon2Params where
  mCost : Nat
  tCost : Nat
  pCost : Nat
  outputLen : Nat
  deriving DecidableEq, Repr

/-- Modelled from the library contract the spec relies on:
`argon2::Params::new` validates its arguments (memory cost at least 8 KiB,
at least one iteration, parallelism between 1 and 2^24 - 1, output length
at least 4 bytes) and otherwise returns the parameter block unchanged. -/
def paramsNew (m t p o : Nat) : Option Argon2Params :=
  if 8 ≤ m ∧ 1 ≤ t ∧ 1 ≤ p ∧ p ≤ 16777215 ∧ 4 ≤ o then some ⟨m, t, p, o⟩ else none

/-- The type of the external Argon2id password-hashing primitive: password
bytes and salt bytes to the derived hash bytes, under a parameter block.
The primitive itself lives in the argon2 crate and is kept abstract. -/
abbrev Argon2Fn := List Nat → List Nat → Argon2Params → List Nat

/-- The type of the external SHA-256 primitive (sha2 crate), kept
abstract: input bytes to the 32-byte digest. -/
abbrev HashFn := List Nat → List Nat

/-- `derive_master_key` (key.rs lines 109-153), with the external Argon2id
primitive passed in as `argon`.  The source builds the parameter block
from the four constants, b64-encodes the salt into a `SaltString` (which
fails only when the encoding exceeds the 64-character capacity, i.e. for
salts longer than 48 bytes; `hash_password` decodes it back to the
verbatim salt bytes), and hashes the password. -/
def deriveMasterKey (argon : Argon2Fn) (password saltBytes : List Nat) :
    Except Error (List Nat) :=
  match paramsNew ARGON2_MEMORY_KB ARGON2_ITERATIONS ARGON2_PARALLELISM ARGON2_OUTPUT_LEN with
  | none => .error (.Encryption (.KeyDerivationFailed "Invalid Argon2 parameters"))
  | some params =>
    if saltBytes.length ≤ 48 then
      .ok (argon password saltBytes params)
    else
      .error (.Encryption (.KeyDerivationFailed "Salt encoding failed"))

/-- `derive_domain_key` (key.rs lines 156-161): one SHA-256 digest over
the master key bytes followed by the domain identifier bytes. -/
def deriveDomainKey (sha : HashFn) (masterKey : List Nat) (domain : KeyDomain) : List Nat :=
  sha (masterKey ++ strBytes domain.asStr)

/-- `derive_key` (key.rs lines 179-188).  `freshSalt` is the explicit
image of the random bytes `Salt::generate` would produce on this call; it
is used exactly when no salt is supplied (`salt.unwrap_or_else`). -/
def deriveKey (argon : Argon2Fn) (sha : HashFn) (password : List Nat)
    (domain : KeyDomain) (saltOpt : Option (List Nat)) (freshSalt : List Nat) :
    Except Error DerivedKey :=
  let salt := saltOpt.getD freshSalt
  match deriveMasterKey argon password salt with
  | .error e => .error e
  | .ok masterKey => .ok ⟨deriveDomainKey sha masterKey domain, salt, domain⟩

/-- Modelled from the spec: `derive_key` exactly as claim C5 words it —
first the 32-byte master key via Argon2id with memory cost 65536 KiB,
3 iterations, parallelism 4 and 32-byte output over the password and the
salt (the supplied one, or the freshly generated one when none is
supplied), then the final key as SHA-256 of the master key bytes
concatenated with the domain identifier, all bundled into a `DerivedKey`
together with the salt actually used and the domain. -/
def deriveKeyClaimModel (argon : Argon2Fn) (sha : HashFn) (password : List Nat)
    (domain : KeyDomain) (saltOpt : Option (List Nat)) (freshSalt : List Nat) :
    DerivedKey :=
  let salt := saltOpt.getD freshSalt
  let masterKey := argon password salt ⟨65536, 3, 4, 32⟩
  { key := sha (masterKey ++ strBytes domain.asStr), salt := salt, domain := domain }

/-! ## Base64 (the base64 crate's STANDARD engine, used by cipher.rs) -/

/-- The standard base64 alphabet character for a 6-bit value. -/
def b64Char (n : Nat) : Char :=
  "ABCDEFGHIJKLMNOPQRSTUVWXYZabcdefghijklmnopqrstuvwxyz0123456789+/".toList.getD n 'A'

/-- Index of a character in the standard base64 alphabet. -/
def b64Index (c : Char) : Option Nat :=
  "ABCDEFGHIJKLMNOPQRSTUVWXYZabcdefghijklmnopqrstuvwxyz0123456789+/".toList.findIdx?
    (fun d => d == c)

/-- Modelled from the library contract: padded standard base64 encoding
(`base64::engine::general_purpose::STANDARD.encode`). -/
def base64Encode : List Nat → List Char
  | [] => []
  | [a] => [b64Char (a / 4), b64Char (a % 4 * 16), '=', '=']
  | [a, b] => [b64Char (a / 4), b64Char (a % 4 * 16 + b / 16), b64Char (b % 16 * 4), '=']
  | a :: b :: c :: rest =>
    b64Char (a / 4) :: b64Char (a % 4 * 16 + b / 16) ::
      b64Char (b % 16 * 4 + c / 64) :: b64Char (c % 64) :: base64Encode rest

/-- Modelled from the library contract: padded standard base64 decoding
(`base64::engine::general_purpose::STANDARD.decode`), rejecting invalid
characters, bad lengths and non-canonical trailing bits. -/
def base64Decode : List Char → Option (List Nat)
  | [] => some []
  | c1 :: c2 :: c3 :: c4 :: rest =>
    if rest.isEmpty then
      if c3 = '=' ∧ c4 = '=' then
        match b64Index c1, b64Index c2 with
        | some a, some b => if b % 16 = 0 then some [a * 4 + b / 16] else none
        | _, _ => none
      else if c4 = '=' then
        match b64Index c1, b64Index c2, b64Index c3 with
        | some a, some b, some c =>
          if c % 4 = 0 then some [a * 4 + b / 16, b % 16 * 16 + c / 4] else none
        | _, _, _ => none
      else
        match b64Index c1, b64Index c2, b64Index c3, b64Index c4 with
        | some a, some b, some c, some d =>
          some [a * 4 + b / 16, b % 16 * 16 + c / 4, c % 4 * 64 + d]
        | _, _, _, _ => none
    else
      match b64Index c1, b64Index c2, b64Index c3, b64Index c4, base64Decode rest with
      | some a, some b, some c, some d, some bytes =>
        some ([a * 4 + b / 16, b % 16 * 16 + c / 4, c % 4 * 64 + d] ++ bytes)
      | _, _, _, _, _ => none
  | _ => none

/-! ## UTF-8 validation (Rust `String::from_utf8`, used by decrypt_string) -/

/-- Modelled from the library contract: Rust `String::from_utf8`
validation and decoding.  Accepts exactly well-formed UTF-8 (no
continuation-byte leads, no overlong forms, no surrogates, nothing above
U+10FFFF) and returns the decoded characters. -/
def utf8Decode : List Nat → Option (List Char)
  | [] => some []
  | b1 :: rest =>
    if b1 < 128 then
      (utf8Decode rest).map (fun cs => Char.ofNat b1 :: cs)
    else if b1 < 194 then none
    else if b1 < 224 then
      match rest with
      | b2 :: rest2 =>
        if 128 ≤ b2 ∧ b2 < 192 then
          (utf8Decode rest2).map (fun cs => Char.ofNat ((b1 - 192) * 64 + (b2 - 128)) :: cs)
        else none
      | [] => none
    else if b1 < 240 then
      match rest with
      | b2 :: b3 :: rest3 =>
        if (if b1 = 224 then 160 ≤ b2 ∧ b2 < 192
            else if b1 = 237 then 128 ≤ b2 ∧ b2 < 160
            else 128 ≤ b2 ∧ b2 < 192) ∧ 128 ≤ b3 ∧ b3 < 192 then
          (utf8Decode rest3).map
            (fun cs => Char.ofNat ((b1 - 224) * 4096 + (b2 - 128) * 64 + (b3 - 128)) :: cs)
        else none
      | _ => none
    else if b1 < 245 then
      match rest with
      | b2 :: b3 :: b4 :: rest4 =>
        if (if b1 = 240 then 144 ≤ b2 ∧ b2 < 192
            else if b1 = 244 then 128 ≤ b2 ∧ b2 < 144
            else 128 ≤ b2 ∧ b2 < 192) ∧ 128 ≤ b3 ∧ b3 < 192 ∧ 128 ≤ b4 ∧ b4 < 192 then
          (utf8Decode rest4).map
            (fun cs =>
              Char.ofNat
                ((b1 - 240) * 262144 + (b2 - 128) * 4096 + (b3 - 128) * 64 + (b4 - 128)) :: cs)
        else none
      | _ => none
    else none

/-- `decrypt_string` (cipher.rs lines 127-146): base64-decode, then the
authenticated `decrypt`, then UTF-8 validation of the recovered bytes, in
that order.  The source renders the base64 and UTF-8 library errors into
the reason string with `format!`; the model keeps the fixed prefix of each
reason. -/
def decryptString (ciphertextB64 : List Char) (key : DerivedKey) :
    Except Error (List Char) :=
  match base64Decode ciphertextB64 with
  | none => .error (.Encryption (.DecryptionFailed "Invalid base64"))
  | some ciphertext =>
    match decrypt ciphertext key with
    | .error e => .error e
    | .ok plaintext =>
      match utf8Decode plaintext with
      | some s => .ok s
      | none => .error (.Encryption (.DecryptionFailed "Invalid UTF-8"))

/-! ## Secure memory (src/finance-cli/src/encryption/secure_memory.rs)

Only the Debug formatting is value-level behaviour; zeroization-on-drop is
a memory/lifetime property outside the value model. -/

/-- `impl Debug for SecureString` (secure_memory.rs lines 52-56): the
formatter output for a SecureString holding `s`.  The source writes a
fixed literal and never touches `s`. -/
def secureStringDebugFmt (_s : List Char) : List Char :=
  "SecureString([REDACTED])".toList

/-- `impl Debug for SecureBytes` (secure_memory.rs lines 120-124): the
formatter output for a SecureBytes holding `b`.  The source interpolates
only `self.0.len()` into the fixed literal. -/
def secureBytesDebugFmt (b : List Nat) : List Char :=
  "SecureBytes([REDACTED, ".toList ++ (Nat.repr b.length).toList ++ " bytes])".toList


/-! ## Concrete values used to instantiate theorems -/

/-- A well-formed 32-byte key value for concrete instantiations. -/
def sampleKey : DerivedKey :=
  ⟨List.replicate 32 0, List.replicate 16 0, KeyDomain.Database⟩

/-- A 12-byte nonce value for concrete instantiations. -/
def sampleNonce : List Nat := List.replicate 12 0

/-! ## Basic length and inversion lemmas for the AEAD model -/

theorem xorKeystream_length (key nonce : List Nat) :
    ∀ (i : Nat) (pt : List Nat), (xorKeystream key nonce i pt).length = pt.length := by
  intro i pt
  induction pt generalizing i with
  | nil => rfl
  | cons b rest ih => simp [xorKeystream, ih]

theorem xorKeystream_xorKeystream (key nonce : List Nat) :
    ∀ (i : Nat) (pt : List Nat),
      xorKeystream key nonce i (xorKeystream key nonce i pt) = pt := by
  intro i pt
  induction pt generalizing i with
  | nil => rfl
  | cons b rest ih =>
    simp [xorKeystream, ih, Nat.xor_assoc, Nat.xor_self, Nat.xor_zero]

theorem gTagGo_length : ∀ (st : List Nat) (i : Nat) (l : List Nat),
    (gTagGo st i l).length = st.length := by
  intro st i l
  induction l generalizing st i with
  | nil => rfl
  | cons b rest ih => simp [gTagGo, ih]

theorem gTag_length (key nonce ct : List Nat) : (gTag key nonce ct).length = 16 := by
  simp [gTag, gTagGo_length]

theorem aeadEncrypt_length (key nonce pt : List Nat) :
    (aeadEncrypt key nonce pt).length = pt.length + 16 := by
  simp [aeadEncrypt, xorKeystream_length, gTag_length]

theorem aeadDecrypt_aeadEncrypt (key nonce pt : List Nat) :
    aeadDecrypt key nonce (aeadEncrypt key nonce pt) = some pt := by
  have hlen : (aeadEncrypt key nonce pt).length = pt.length + 16 :=
    aeadEncrypt_length key nonce pt
  have hb : (xorKeystream key nonce 0 pt).length = pt.length :=
    xorKeystream_length key nonce 0 pt
  have htake :
      (aeadEncrypt key nonce pt).take ((aeadEncrypt key nonce pt).length - TAG_SIZE) =
        xorKeystream key nonce 0 pt := by
    rw [hlen]
    show (xorKeystream key nonce 0 pt ++ gTag key nonce (xorKeystream key nonce 0 pt)).take
        (pt.length + 16 - TAG_SIZE) = xorKeystream key nonce 0 pt
    have h16 : pt.length + 16 - TAG_SIZE = (xorKeystream key nonce 0 pt).length := by
      rw [hb]; rfl
    rw [h16, List.take_left]
  have hdrop :
      (aeadEncrypt key nonce pt).drop ((aeadEncrypt key nonce pt).length - TAG_SIZE) =
        gTag key nonce (xorKeystream key nonce 0 pt) := by
    rw [hlen]
    show (xorKeystream key nonce 0 pt ++ gTag key nonce (xorKeystream key nonce 0 pt)).drop
        (pt.length + 16 - TAG_SIZE) = gTag key nonce (xorKeystream key nonce 0 pt)
    have h16 : pt.length + 16 - TAG_SIZE = (xorKeystream key nonce 0 pt).length := by
      rw [hb]; rfl
    rw [h16, List.drop_left]
  have hnotshort : ¬ (aeadEncrypt key nonce pt).length < TAG_SIZE := by
    rw [hlen]; show ¬ pt.length + 16 < 16; omega
  rw [aeadDecrypt, if_neg hnotshort]
  simp only [htake, hdrop, if_pos rfl]
  simp [xorKeystream_xorKeystream]
/-! ## Claim theorems -/

/-- Claim C1: for every byte string `m` (including the empty string) and
every DerivedKey `k` whose key is exactly 32 bytes, decrypt(encrypt(m, k), k)
succeeds and returns plaintext bytes equal to `m`.  The nonce argument is
the 12 random bytes the encrypt call draws. -/
theorem C1_round_trip (m nonce : List Nat) (k : DerivedKey)
    (h32 : k.key.length = 32) (h12 : nonce.length = 12) :
    (encrypt m nonce k).bind (fun c => decrypt c k) = Except.ok m := by
  have he : encrypt m nonce k = .ok (nonce ++ aeadEncrypt k.key nonce m) := by
    simp [encrypt, newFromSlice, h32]
  rw [he]
  show decrypt (nonce ++ aeadEncrypt k.key nonce m) k = Except.ok m
  have hlen : (nonce ++ aeadEncrypt k.key nonce m).length = m.length + 28 := by
    rw [List.length_append, aeadEncrypt_length, h12]; omega
  have hnotshort : ¬ (nonce ++ aeadEncrypt k.key nonce m).length < NONCE_SIZE + TAG_SIZE := by
    rw [hlen]; show ¬ m.length + 28 < 12 + 16; omega
  have hns : NONCE_SIZE = nonce.length := by rw [h12]; rfl
  have htake : (nonce ++ aeadEncrypt k.key nonce m).take NONCE_SIZE = nonce := by
    rw [hns, List.take_left]
  have hdrop :
      (nonce ++ aeadEncrypt k.key nonce m).drop NONCE_SIZE = aeadEncrypt k.key nonce m := by
    rw [hns, List.drop_left]
  show decryptWith aeadDecrypt (nonce ++ aeadEncrypt k.key nonce m) k = Except.ok m
  unfold decryptWith
  rw [if_neg hnotshort]
  simp only [htake, hdrop, h32, ne_eq, newFromSlice, if_pos rfl,
    aeadDecrypt_aeadEncrypt]
  simp

/-- Claim C1 witness at a concrete two-byte plaintext and the sample key
and nonce. -/
theorem C1_round_trip_witness :
    (encrypt [104, 105] sampleNonce sampleKey).bind (fun c => decrypt c sampleKey)
      = Except.ok [104, 105] :=
  C1_round_trip [104, 105] sampleNonce sampleKey (by decide) (by decide)

/-- Claim C2: for every plaintext and every 32-byte key, the output of
encrypt is the 12-byte nonce, then an encrypted payload of the plaintext's
length, then a 16-byte tag, for a total of m.length + 28 bytes. -/
theorem C2_output_layout (m nonce : List Nat) (k : DerivedKey)
    (h32 : k.key.length = 32) (h12 : nonce.length = 12) :
    ∃ payload tag,
      encrypt m nonce k = .ok (nonce ++ (payload ++ tag))
      ∧ payload.length = m.length
      ∧ tag.length = 16
      ∧ (nonce ++ (payload ++ tag)).length = m.length + 28 := by
  refine ⟨xorKeystream k.key nonce 0 m, gTag k.key nonce (xorKeystream k.key nonce 0 m),
    ?_, xorKeystream_length k.key nonce 0 m, gTag_length k.key nonce _, ?_⟩
  · simp [encrypt, newFromSlice, h32]
    rfl
  · rw [List.length_append, List.length_append, xorKeystream_length, gTag_length, h12]
    omega

/-- Claim C2 witness at a concrete plaintext and the sample key and nonce. -/
theorem C2_output_layout_witness :
    ∃ payload tag,
      encrypt [7, 8, 9] sampleNonce sampleKey = .ok (sampleNonce ++ (payload ++ tag))
      ∧ payload.length = [7, 8, 9].length
      ∧ tag.length = 16
      ∧ (sampleNonce ++ (payload ++ tag)).length = [7, 8, 9].length + 28 :=
  C2_output_layout [7, 8, 9] sampleNonce sampleKey (by decide) (by decide)

/-- Claim C4: for every buffer shorter than 28 bytes and every key of any
length, decrypt fails with the "too short" DecryptionFailed reason; the
result is the same for every AEAD primitive (so the primitive is never
consulted) and for every key (so the key-length check never runs first). -/
theorem C4_too_short (data : List Nat) (k : DerivedKey) (h : data.length < 28) :
    decrypt data k = .error (.Encryption (.DecryptionFailed "Ciphertext too short"))
    ∧ ∀ aead, decryptWith aead data k
        = .error (.Encryption (.DecryptionFailed "Ciphertext too short")) := by
  have h28 : data.length < NONCE_SIZE + TAG_SIZE := h
  constructor
  · show decryptWith aeadDecrypt data k = _
    unfold decryptWith
    rw [if_pos h28]
  · intro aead
    unfold decryptWith
    rw [if_pos h28]

/-- Claim C4 witness: a concrete 10-byte buffer with the sample key, and
with an AEAD primitive that would happily accept everything. -/
theorem C4_too_short_witness :
    decrypt (List.replicate 10 0) sampleKey
      = .error (.Encryption (.DecryptionFailed "Ciphertext too short"))
    ∧ decryptWith (fun _ _ data => some data) (List.replicate 10 0) sampleKey
      = .error (.Encryption (.DecryptionFailed "Ciphertext too short")) :=
  ⟨(C4_too_short (List.replicate 10 0) sampleKey (by decide)).1,
   (C4_too_short (List.replicate 10 0) sampleKey (by decide)).2 (fun _ _ data => some data)⟩

/-- Claim C5: derive_key is Argon2id with memory cost 65536 KiB, 3
iterations, parallelism 4 and 32-byte output over the password and the
salt (the supplied one, or the fresh 16-byte one when none is supplied),
followed by SHA-256 over master key bytes and the domain identifier, with
key, salt and domain bundled into the returned DerivedKey — stated as a
refinement between the source-structured definition and the definition
worded after the claim, for every Argon2id and SHA-256 primitive. -/
theorem C5_derivation_pipeline (argon : Argon2Fn) (sha : HashFn) (password : List Nat)
    (domain : KeyDomain) (saltOpt : Option (List Nat)) (freshSalt : List Nat)
    (hsalt : (saltOpt.getD freshSalt).length = 16) :
    deriveKey argon sha password domain saltOpt freshSalt
      = .ok (deriveKeyClaimModel argon sha password domain saltOpt freshSalt) := by
  have hp : paramsNew ARGON2_MEMORY_KB ARGON2_ITERATIONS ARGON2_PARALLELISM ARGON2_OUTPUT_LEN
      = some ⟨65536, 3, 4, 32⟩ := by decide
  simp only [deriveKey, deriveMasterKey, deriveDomainKey, deriveKeyClaimModel, hp]
  rw [if_pos (by rw [hsalt]; norm_num)]

/-- Claim C5 witness at concrete primitives, password, domain and salt. -/
theorem C5_derivation_pipeline_witness :
    deriveKey (fun _ _ _ => List.replicate 32 1) (fun l => l.take 32) (strBytes "pw")
        KeyDomain.Database (some (List.replicate 16 2)) (List.replicate 16 3)
      = .ok (deriveKeyClaimModel (fun _ _ _ => List.replicate 32 1) (fun l => l.take 32)
          (strBytes "pw") KeyDomain.Database (some (List.replicate 16 2))
          (List.replicate 16 3)) :=
  C5_derivation_pipeline _ _ _ _ _ _ (by decide)

/-- Claim C8: decrypt_string propagates every decrypt failure unchanged —
so UTF-8 validation never runs on data that failed authentication — and on
authenticated but non-UTF-8 plaintext it fails with the distinct
"Invalid UTF-8" DecryptionFailed error, which differs from the generic
authentication-failure error. -/
theorem C8_utf8_after_auth (b64 : List Char) (k : DerivedKey) (data pt : List Nat)
    (hb : base64Decode b64 = some data) :
    (∀ e, decrypt data k = .error e → decryptString b64 k = .error e)
    ∧ (decrypt data k = .ok pt → utf8Decode pt = none →
        decryptString b64 k = .error (.Encryption (.DecryptionFailed "Invalid UTF-8"))
        ∧ Error.Encryption (.DecryptionFailed "Invalid UTF-8")
            ≠ Error.Encryption
                (.DecryptionFailed "Decryption failed - invalid key or corrupted data")) := by
  constructor
  · intro e he
    simp only [decryptString, hb, he]
  · intro hok hutf
    refine ⟨?_, by decide⟩
    simp only [decryptString, hb, hok, hutf]

/-- Claim C8 witness: a genuine encryption of the non-UTF-8 byte 0xFF is
rejected with the distinct "Invalid UTF-8" error, and a tampered
ciphertext's generic authentication error passes through decrypt_string
unchanged. -/
theorem C8_utf8_after_auth_witness :
    (decryptString (base64Encode ((encrypt [255] sampleNonce sampleKey).toOption.getD []))
        sampleKey
      = .error (.Encryption (.DecryptionFailed "Invalid UTF-8"))
    ∧ Error.Encryption (.DecryptionFailed "Invalid UTF-8")
        ≠ Error.Encryption
            (.DecryptionFailed "Decryption failed - invalid key or corrupted data"))
    ∧ decryptString
        (base64Encode (((encrypt [65] sampleNonce sampleKey).toOption.getD []).take 28
          ++ [(((encrypt [65] sampleNonce sampleKey).toOption.getD []).getD 28 0) ^^^ 255]))
        sampleKey
      = .error (.Encryption
          (.DecryptionFailed "Decryption failed - invalid key or corrupted data")) :=
  ⟨(C8_utf8_after_auth
      (base64Encode ((encrypt [255] sampleNonce sampleKey).toOption.getD []))
      sampleKey ((encrypt [255] sampleNonce sampleKey).toOption.getD []) [255]
      (by decide)).2 (by decide) (by decide),
   (C8_utf8_after_auth
      (base64Encode (((encrypt [65] sampleNonce sampleKey).toOption.getD []).take 28
        ++ [(((encrypt [65] sampleNonce sampleKey).toOption.getD []).getD 28 0) ^^^ 255]))
      sampleKey
      (((encrypt [65] sampleNonce sampleKey).toOption.getD []).take 28
        ++ [(((encrypt [65] sampleNonce sampleKey).toOption.getD []).getD 28 0) ^^^ 255])
      [] (by decide)).1
     (.Encryption (.DecryptionFailed "Decryption failed - invalid key or corrupted data"))
     (by decide)⟩

/-- Claim C9 counterexample: the SecureString holding the text "REDACTED"
has a Debug output that contains the stored secret as a substring, so
"never contains the stored secret content as a substring" is false as
stated. -/
theorem C9_counterexample :
    "REDACTED".toList <:+: secureStringDebugFmt ("REDACTED".toList) := by decide

/-- Claim C9 (amended): the Debug output is a fixed placeholder
independent of the stored secret — constant for SecureString, a function
of the byte length alone for SecureBytes — and consequently contains the
secret as a substring only when the secret already occurs in that fixed
placeholder text. -/
theorem C9_redaction (s t : List Char) (b c : List Nat)
    (hlen : b.length = c.length)
    (hs : ¬ s <:+: secureStringDebugFmt t)
    (hb : ¬ b.map Char.ofNat <:+: secureBytesDebugFmt c) :
    secureStringDebugFmt s = secureStringDebugFmt t
    ∧ secureBytesDebugFmt b = secureBytesDebugFmt c
    ∧ ¬ s <:+: secureStringDebugFmt s
    ∧ ¬ b.map Char.ofNat <:+: secureBytesDebugFmt b := by
  have h1 : secureStringDebugFmt s = secureStringDebugFmt t := rfl
  have h2 : secureBytesDebugFmt b = secureBytesDebugFmt c := by
    unfold secureBytesDebugFmt
    rw [hlen]
  exact ⟨h1, h2, by rw [h1]; exact hs, by rw [h2]; exact hb⟩

/-- Claim C9 witness at concrete secrets not occurring in the fixed
placeholder text. -/
theorem C9_redaction_witness :
    secureStringDebugFmt ['x'] = secureStringDebugFmt ['y']
    ∧ secureBytesDebugFmt [1] = secureBytesDebugFmt [2]
    ∧ ¬ ['x'] <:+: secureStringDebugFmt ['x']
    ∧ ¬ [1].map Char.ofNat <:+: secureBytesDebugFmt [1] :=
  C9_redaction ['x'] ['y'] [1] [2] rfl (by decide) (by decide)

/-- Claim C10: for every 32-byte key and every plaintext, encrypt
succeeds — none of its error branches can be taken. -/
theorem C10_encrypt_total (m nonce : List Nat) (k : DerivedKey)
    (h32 : k.key.length = 32) :
    ∃ c, encrypt m nonce k = Except.ok c :=
  ⟨nonce ++ aeadEncrypt k.key nonce m, by simp [encrypt, newFromSlice, h32]⟩

/-- Claim C10 witness at a concrete plaintext and the sample key. -/
theorem C10_encrypt_total_witness :
    ∃ c, encrypt [1, 2, 3] sampleNonce sampleKey = Except.ok c :=
  C10_encrypt_total [1, 2, 3] sampleNonce sampleKey (by decide)

/-! ## Supporting facts for the claims that are outside the embedding

Claims C3 (universal wrong-key rejection and bit-flip detection), C6
(pairwise distinct domain keys for every password and salt) and C7 (nonce
freshness across calls) rest on computational-security or randomness
properties of the external primitives; the deterministic residues the
repository itself is responsible for are recorded here. -/

/-- Residue of claim C3 owned by the repository: whenever the AEAD
primitive rejects, decrypt returns exactly the one generic
DecryptionFailed error, never distinguishing the cause. -/
theorem decrypt_aead_failure_generic (data : List Nat) (k : DerivedKey)
    (hlen : ¬ data.length < 28) (h32 : k.key.length = 32)
    (hrej : aeadDecrypt k.key (data.take NONCE_SIZE) (data.drop NONCE_SIZE) = none) :
    decrypt data k
      = .error (.Encryption
          (.DecryptionFailed "Decryption failed - invalid key or corrupted data")) := by
  have hlen28 : ¬ data.length < NONCE_SIZE + TAG_SIZE := hlen
  show decryptWith aeadDecrypt data k = _
  unfold decryptWith
  rw [if_neg hlen28]
  simp only [h32, ne_eq, newFromSlice, if_pos rfl, hrej]
  simp

/-- Residue of claim C7 owned by the repository: the drawn nonce occupies
bytes 0..12 of encrypt's output, so two calls that draw distinct nonces
return outputs with distinct first 12 bytes. -/
theorem encrypt_nonce_first_bytes (m1 m2 n1 n2 : List Nat) (k : DerivedKey)
    (h32 : k.key.length = 32) (h12a : n1.length = 12) (h12b : n2.length = 12)
    (hne : n1 ≠ n2) (c1 c2 : List Nat)
    (h1 : encrypt m1 n1 k = .ok c1) (h2 : encrypt m2 n2 k = .ok c2) :
    c1.take 12 ≠ c2.take 12 := by
  have e1 : encrypt m1 n1 k = .ok (n1 ++ aeadEncrypt k.key n1 m1) := by
    simp [encrypt, newFromSlice, h32]
  have e2 : encrypt m2 n2 k = .ok (n2 ++ aeadEncrypt k.key n2 m2) := by
    simp [encrypt, newFromSlice, h32]
  have hc1 : n1 ++ aeadEncrypt k.key n1 m1 = c1 := by
    have h := e1.symm.trans h1
    injection h
  have hc2 : n2 ++ aeadEncrypt k.key n2 m2 = c2 := by
    have h := e2.symm.trans h2
    injection h
  rw [← hc1, ← hc2]
  have t1 : (n1 ++ aeadEncrypt k.key n1 m1).take 12 = n1 := by
    rw [show (12 : Nat) = n1.length from h12a.symm, List.take_left]
  have t2 : (n2 ++ aeadEncrypt k.key n2 m2).take 12 = n2 := by
    rw [show (12 : Nat) = n2.length from h12b.symm, List.take_left]
  rw [t1, t2]
  exact hne
